import Mathlib

/-!
Shallow embedding of the dataset-health monitoring core
(src/registry.py, src/health.py, src/checks/{freshness,completeness,schema,volume}.py).

Modelling conventions:
* Python `float` values are modelled as exact rationals (`ℚ`); the checks'
  threshold comparisons (`ratio >= 0.9`, `age <= sla * 1.5`) are exact at the
  inputs the claims exercise.
* Timezone-aware `datetime` instants are modelled as integer microseconds since
  the Unix epoch (`ℤ`); `datetime` subtraction is exact at microsecond
  resolution, matching CPython.  A naive datetime is represented by the instant
  obtained by reading its wall-clock fields as UTC, which is exactly what
  `value.replace(tzinfo=timezone.utc)` produces in `parse_datetime`.
* Python dictionary values occurring in dataset metadata are modelled by the
  inductive `Value`; a missing key and an explicit `None` both surface as
  `Value.none` from `Dataset.get`, matching `dict.get(key)`.
* Raising an exception is modelled by `Except.error`; a function that raises
  returns no new state, so the caller's registry value is untouched.
-/

inductive Status where
  | GREEN
  | YELLOW
  | RED
deriving DecidableEq

deriving instance DecidableEq for Except

/-- Model of the Python values stored in `Dataset.metadata` dictionaries.
`Value.dt` is a timezone-aware `datetime` carrying its instant in microseconds
since the epoch; a naive datetime is represented by its wall time read as UTC.
`Value.float` carries the exact rational value of the Python float. -/
inductive Value where
  | none
  | bool (b : Bool)
  | int (n : ℤ)
  | float (q : ℚ)
  | str (s : String)
  | list (xs : List Value)
  | tuple (xs : List Value)
  | dt (us : ℤ)

structure CheckResult where
  name : String
  status : Status
  message : String
  details : List (String × Value)

structure Dataset where
  name : String
  description : String := ""
  location : String := ""
  owner : String := ""
  metadata : List (String × Value) := []
  source : String := ""

/-- Embedding of `Dataset.get`: `self.metadata.get(key, None)`.  A missing key yields
`Value.none`, which is how Python's `None` default surfaces. -/
def Dataset.get (d : Dataset) (key : String) : Value :=
  (d.metadata.lookup key).getD Value.none

/-- Round half to even to the nearest integer: Python's `round` and the
rounding used by `float` formatting. -/
def roundHE (q : ℚ) : ℤ :=
  if q - ⌊q⌋ < 1/2 then ⌊q⌋
  else if q - ⌊q⌋ > 1/2 then ⌊q⌋ + 1
  else if ⌊q⌋ % 2 = 0 then ⌊q⌋ else ⌊q⌋ + 1

/-- Python `round(x, 3)`: round half to even at three decimal places. -/
def roundTo3 (q : ℚ) : ℚ := (roundHE (q * 1000) : ℚ) / 1000

/-- Decimal digits of a natural number, used to left-pad fixed-point output. -/
def natDigitsLen (n : ℕ) : ℕ := (Nat.toDigits 10 n).length

def padZeroLeft (width : ℕ) (s : String) : String :=
  String.mk (List.replicate (width - s.length) '0') ++ s

def formatFixedPos (nd : ℕ) (q : ℚ) : String :=
  let r : ℤ := roundHE (q * ((10 : ℚ) ^ nd))
  let ip : ℤ := r / (10 : ℤ) ^ nd
  let fp : ℤ := r % (10 : ℤ) ^ nd
  toString ip ++ "." ++ padZeroLeft nd (toString fp)

/-- Python fixed-point formatting `"{:.<nd>f}".format(q)` for `nd > 0`. -/
def formatFixed (nd : ℕ) (q : ℚ) : String :=
  if q < 0 then "-" ++ formatFixedPos nd (-q) else formatFixedPos nd q

/-- Python `"{:.0f}".format(q)`: no decimal point. -/
def formatFixed0 (q : ℚ) : String := toString (roundHE q)

/-- Model of Python `float(value)` on the metadata values: succeeds on ints,
floats, bools (`bool` subclasses `int`) and finite decimal literals
(`sign? digits [. digits] [e sign? digits]`, the forms the repository's data
exercises); fails (`TypeError`/`ValueError`) on everything else. -/
def pyFloatString (s : String) : Option ℚ :=
  let cs := s.trim.data
  let (sgn, cs₁) :=
    match cs with
    | '+' :: rest => ((1 : ℚ), rest)
    | '-' :: rest => ((-1 : ℚ), rest)
    | rest => ((1 : ℚ), rest)
  let ip := cs₁.takeWhile Char.isDigit
  let cs₂ := cs₁.dropWhile Char.isDigit
  let (fp, cs₃) :=
    match cs₂ with
    | '.' :: rest => (rest.takeWhile Char.isDigit, rest.dropWhile Char.isDigit)
    | rest => ([], rest)
  if ip.isEmpty ∧ fp.isEmpty then Option.none
  else
    let mantissa : ℚ :=
      (ip.foldl (fun a c => a * 10 + (c.toNat - 48 : ℕ)) 0 : ℕ) +
        ((fp.foldl (fun a c => a * 10 + (c.toNat - 48 : ℕ)) 0 : ℕ) : ℚ) / (10 : ℚ) ^ fp.length
    match cs₃ with
    | [] => Option.some (sgn * mantissa)
    | e :: rest =>
      if e = 'e' ∨ e = 'E' then
        let (esgn, rest₁) :=
          match rest with
          | '+' :: r => ((1 : ℤ), r)
          | '-' :: r => ((-1 : ℤ), r)
          | r => ((1 : ℤ), r)
        let ed := rest₁.takeWhile Char.isDigit
        if ed.isEmpty ∨ ¬ (rest₁.dropWhile Char.isDigit).isEmpty then Option.none
        else
          let ev : ℤ := esgn * (ed.foldl (fun a c => a * 10 + (c.toNat - 48 : ℕ)) 0 : ℕ)
          if ev ≥ 0 then Option.some (sgn * mantissa * (10 : ℚ) ^ ev.toNat)
          else Option.some (sgn * mantissa / (10 : ℚ) ^ (-ev).toNat)
      else Option.none

def pyFloat : Value → Option ℚ
  | Value.int n => Option.some (n : ℚ)
  | Value.float q => Option.some q
  | Value.bool b => Option.some (if b then 1 else 0)
  | Value.str s => pyFloatString s
  | _ => Option.none

/-- Model of Python `str(item)` for the values occurring in schema field
lists.  Floats keep their exact rational rendering; the repository's schema
lists contain strings, for which this is the identity. -/
def pyStr : Value → String
  | Value.none => "None"
  | Value.bool b => if b then "True" else "False"
  | Value.int n => toString n
  | Value.float q => toString q
  | Value.str s => s
  | Value.list _ => "<list>"
  | Value.tuple _ => "<tuple>"
  | Value.dt us => toString us

/-! ### Datetime parsing (`registry.parse_datetime`)

Instants are integer microseconds since the Unix epoch.  The string branch
models CPython's `datetime.fromisoformat` (the pre-3.11 grammar the code was
written against: `YYYY-MM-DD[<sep>HH[:MM[:SS[.fff|.ffffff]]][+HH:MM[:SS[.ffffff]]]]`),
including the field-range validation done by the `datetime` constructor. -/

def isLeapYear (y : ℤ) : Bool := (y % 4 == 0 && y % 100 != 0) || y % 400 == 0

def daysInMonth (y m : ℤ) : ℤ :=
  if m = 2 then (if isLeapYear y then 29 else 28)
  else if m = 4 ∨ m = 6 ∨ m = 9 ∨ m = 11 then 30
  else 31

/-- Days from the Unix epoch (1970-01-01) to the civil date `y-m-d`
(Gregorian, proleptic).  `/` and `%` on `ℤ` are Euclidean, i.e. floor
division for the positive divisors used here. -/
def daysFromCivil (y m d : ℤ) : ℤ :=
  let y2 := if m ≤ 2 then y - 1 else y
  let era := y2 / 400
  let yoe := y2 - era * 400
  let mp := (m + 9) % 12
  let doy := (153 * mp + 2) / 5 + d - 1
  let doe := yoe * 365 + yoe / 4 - yoe / 100 + doy
  era * 146097 + doe - 719468

def digitsVal (ds : List Char) : ℕ := ds.foldl (fun a c => a * 10 + (c.toNat - 48)) 0

/-- Read exactly `k` decimal digits, accumulating onto `acc`. -/
def takeDigits : ℕ → List Char → ℕ → Option (ℕ × List Char)
  | 0, cs, acc => Option.some (acc, cs)
  | _ + 1, [], _ => Option.none
  | k + 1, c :: cs, acc =>
    if c.isDigit then takeDigits k cs (acc * 10 + (c.toNat - 48)) else Option.none

/-- Parse `HH[:MM[:SS[.fff|.ffffff]]]`, consuming the whole input
(CPython `_parse_hh_mm_ss_ff`); returns `(hh, mm, ss, microseconds)`. -/
def parseHMSF (cs : List Char) : Option (ℕ × ℕ × ℕ × ℕ) :=
  match takeDigits 2 cs 0 with
  | Option.none => Option.none
  | Option.some (hh, r1) =>
    match r1 with
    | [] => Option.some (hh, 0, 0, 0)
    | ':' :: r2 =>
      match takeDigits 2 r2 0 with
      | Option.none => Option.none
      | Option.some (mm, r3) =>
        match r3 with
        | [] => Option.some (hh, mm, 0, 0)
        | ':' :: r4 =>
          match takeDigits 2 r4 0 with
          | Option.none => Option.none
          | Option.some (ss, r5) =>
            match r5 with
            | [] => Option.some (hh, mm, ss, 0)
            | '.' :: r6 =>
              if r6.all Char.isDigit ∧ r6.length = 3 then
                Option.some (hh, mm, ss, digitsVal r6 * 1000)
              else if r6.all Char.isDigit ∧ r6.length = 6 then
                Option.some (hh, mm, ss, digitsVal r6)
              else Option.none
            | _ => Option.none
        | _ => Option.none
    | _ => Option.none

/-- Split the time substring at the first `+`/`-` (the timezone marker),
as CPython does. -/
def splitTz : List Char → List Char × Option (Char × List Char)
  | [] => ([], Option.none)
  | c :: cs =>
    if c = '+' ∨ c = '-' then ([], Option.some (c, cs))
    else
      let (pre, tz) := splitTz cs
      (c :: pre, tz)

/-- Embedding of `datetime.fromisoformat` on the list of characters; result in
microseconds since the epoch (UTC), offset applied. -/
def fromisoChars (cs : List Char) : Option ℤ :=
  match takeDigits 4 cs 0 with
  | Option.none => Option.none
  | Option.some (y, r1) =>
    match r1 with
    | '-' :: r2 =>
      match takeDigits 2 r2 0 with
      | Option.none => Option.none
      | Option.some (mo, r3) =>
        match r3 with
        | '-' :: r4 =>
          match takeDigits 2 r4 0 with
          | Option.none => Option.none
          | Option.some (d, r5) =>
            if ¬ (1 ≤ y ∧ 1 ≤ mo ∧ mo ≤ 12 ∧ 1 ≤ d ∧ (d : ℤ) ≤ daysInMonth (y : ℤ) (mo : ℤ)) then
              Option.none
            else
              let dateUS : ℤ := daysFromCivil (y : ℤ) (mo : ℤ) (d : ℤ) * 86400000000
              match r5 with
              | [] => Option.some dateUS
              | _sep :: r6 =>
                let (timecs, tz) := splitTz r6
                match parseHMSF timecs with
                | Option.none => Option.none
                | Option.some (hh, mm, ss, us) =>
                  if ¬ (hh ≤ 23 ∧ mm ≤ 59 ∧ ss ≤ 59) then Option.none
                  else
                    let timeUS : ℤ := ((hh * 3600 + mm * 60 + ss) * 1000000 + us : ℕ)
                    match tz with
                    | Option.none => Option.some (dateUS + timeUS)
                    | Option.some (sgn, tzcs) =>
                      if ¬ (tzcs.length = 5 ∨ tzcs.length = 8 ∨ tzcs.length = 15) then
                        Option.none
                      else
                        match parseHMSF tzcs with
                        | Option.none => Option.none
                        | Option.some (ohh, omm, oss, ous) =>
                          let offUS : ℤ := ((ohh * 3600 + omm * 60 + oss) * 1000000 + ous : ℕ)
                          if ¬ (offUS < 86400000000) then Option.none
                          else if sgn = '-' then Option.some (dateUS + timeUS + offUS)
                          else Option.some (dateUS + timeUS - offUS)
        | _ => Option.none
    | _ => Option.none

def fromisoformat (s : String) : Option ℤ := fromisoChars s.data

/-- Model of Python `str.strip()`. -/
def stripChars (cs : List Char) : List Char :=
  ((cs.dropWhile Char.isWhitespace).reverse.dropWhile Char.isWhitespace).reverse

/-- Microseconds since the epoch of `datetime.min` (0001-01-01T00:00:00). -/
def datetimeMinUS : ℤ := daysFromCivil 1 1 1 * 86400000000

/-- Microseconds since the epoch of `datetime.max` (9999-12-31T23:59:59.999999). -/
def datetimeMaxUS : ℤ := (daysFromCivil 9999 12 31 * 86400 + 86399) * 1000000 + 999999

/-- The error raised by `datetime.fromtimestamp` for a timestamp outside the
representable `datetime` range.  CPython raises `ValueError`,
`OverflowError` or `OSError` depending on magnitude and platform; the model
collapses the family into one raised-error token, since the source catches
none of them on this path. -/
def fromtimestampMsg : String := "timestamp out of range for datetime"

/-- Embedding of `datetime.fromtimestamp(ts, tz=timezone.utc)`: the
timestamp is rounded half-to-even to whole microseconds, and the call
raises when the resulting instant falls outside `datetime`'s year range
1..9999. -/
def fromtimestamp (q : ℚ) : Except String ℤ :=
  let us := roundHE (q * 1000000)
  if us < datetimeMinUS ∨ datetimeMaxUS < us then Except.error fromtimestampMsg
  else Except.ok us

/-- Embedding of `registry.parse_datetime`.  `None` and unhandled types
return `None` (`Except.ok Option.none`); a datetime passes through (a naive
one already carries its UTC reading); a number (`bool` is an `int` in
Python) goes through `datetime.fromtimestamp`, whose out-of-range error
propagates — the `try` in the source wraps only `fromisoformat`; a string
is stripped, a trailing `Z` is rewritten to `+00:00`, and parsed as
ISO-8601 with `ValueError` caught to `None`. -/
def parse_datetime : Value → Except String (Option ℤ)
  | Value.none => Except.ok Option.none
  | Value.dt us => Except.ok (Option.some us)
  | Value.int n => Except.map Option.some (fromtimestamp (n : ℚ))
  | Value.float q => Except.map Option.some (fromtimestamp q)
  | Value.bool b => Except.map Option.some (fromtimestamp (if b then 1 else 0))
  | Value.str s =>
    let cs := stripChars s.data
    let cs2 := if cs.getLast? = Option.some 'Z' then cs.dropLast ++ "+00:00".data else cs
    Except.ok (fromisoChars cs2)
  | Value.list _ => Except.ok Option.none
  | Value.tuple _ => Except.ok Option.none

/-! ### String ordering

Python compares strings lexicographically by code point; `sorted` uses this
order.  Core `String.lt` is the same order, but its iterator-based decision
procedure does not reduce in the kernel, so we use an equivalent structural
comparison. -/

def charListLe : List Char → List Char → Bool
  | [], _ => true
  | _ :: _, [] => false
  | a :: as, b :: bs => if a < b then true else if b < a then false else charListLe as bs

def strLeB (a b : String) : Bool := charListLe a.data b.data

/-- The Python string order `a <= b` (code-point lexicographic). -/
def sle (a b : String) : Prop := strLeB a b = true

instance : DecidableRel sle := fun a b => instDecidableEqBool (strLeB a b) true

/-! ### Built-in checks (src/checks/) -/

/-- Embedding of `checks/freshness.py::check_freshness`.  The opening
`now = now or datetime.now(timezone.utc)` is the identity here: every
`datetime` object is truthy in Python 3, and `now` is always supplied by the
evaluation engine.  `now` is an aware instant in microseconds.  An error
raised inside `parse_datetime` (from `datetime.fromtimestamp` on an
out-of-range numeric timestamp) is caught nowhere in the check, so it
propagates as `Except.error`. -/
def check_freshness (dataset : Dataset) (now : ℤ) : Except String CheckResult :=
  match parse_datetime (dataset.get "last_updated") with
  | Except.error e => Except.error e
  | Except.ok lastParsed =>
    match lastParsed, dataset.get "freshness_hours" with
    | Option.none, fh =>
      Except.ok (CheckResult.mk "freshness" Status.YELLOW
        "Missing last_updated or freshness_hours metadata."
        [("last_updated", dataset.get "last_updated"), ("freshness_hours", fh)])
    | Option.some _, Value.none =>
      Except.ok (CheckResult.mk "freshness" Status.YELLOW
        "Missing last_updated or freshness_hours metadata."
        [("last_updated", dataset.get "last_updated"), ("freshness_hours", Value.none)])
    | Option.some last_updated, fh =>
      match pyFloat fh with
      | Option.none =>
        Except.ok (CheckResult.mk "freshness" Status.YELLOW "Invalid freshness_hours value."
          [("freshness_hours", fh)])
      | Option.some sla_hours =>
        let age_hours : ℚ := (((now - last_updated : ℤ) : ℚ) / 1000000) / 3600
        let status :=
          if age_hours ≤ sla_hours then Status.GREEN
          else if age_hours ≤ sla_hours * 1.5 then Status.YELLOW
          else Status.RED
        Except.ok (CheckResult.mk "freshness" status
          ("Age " ++ formatFixed 1 age_hours ++ "h (SLA " ++ formatFixed 1 sla_hours ++ "h).")
          [("last_updated", Value.dt last_updated),
           ("age_hours", Value.float (roundHE (age_hours * 100) / (100 : ℚ))),
           ("sla_hours", Value.float sla_hours)])

/-- The status of a check call that returned normally; `Option.none` when it
raised. -/
def resultStatus : Except String CheckResult → Option Status
  | Except.ok r => Option.some r.status
  | Except.error _ => Option.none

/-- Embedding of `checks/completeness.py::check_completeness`. -/
def check_completeness (dataset : Dataset) (_now : ℤ) : CheckResult :=
  match dataset.get "record_count", dataset.get "expected_min_records" with
  | Value.none, em =>
    CheckResult.mk "completeness" Status.YELLOW
      "Missing record_count or expected_min_records metadata."
      [("record_count", Value.none), ("expected_min_records", em)]
  | rc, Value.none =>
    CheckResult.mk "completeness" Status.YELLOW
      "Missing record_count or expected_min_records metadata."
      [("record_count", rc), ("expected_min_records", Value.none)]
  | rc, em =>
    match pyFloat rc, pyFloat em with
    | Option.some record_count_value, Option.some expected_min_value =>
      if expected_min_value ≤ 0 then
        CheckResult.mk "completeness" Status.YELLOW
          "expected_min_records must be greater than 0."
          [("expected_min_records", Value.float expected_min_value)]
      else
        let ratio := record_count_value / expected_min_value
        let sm :=
          if record_count_value ≥ expected_min_value then
            (Status.GREEN, "Record count meets expected minimum.")
          else if ratio ≥ 0.9 then
            (Status.YELLOW, "Record count slightly below expected minimum.")
          else
            (Status.RED, "Record count significantly below expected minimum.")
        CheckResult.mk "completeness" sm.1 sm.2
          [("record_count", Value.float record_count_value),
           ("expected_min_records", Value.float expected_min_value),
           ("ratio", Value.float (roundTo3 ratio))]
    | _, _ =>
      CheckResult.mk "completeness" Status.YELLOW
        "Invalid record_count or expected_min_records value."
        [("record_count", rc), ("expected_min_records", em)]

/-- Embedding of `checks/schema.py::_normalize_schema`: a list or tuple becomes its
elements coerced to strings; anything else (including `None`) becomes `[]`. -/
def _normalize_schema : Value → List String
  | Value.list xs => xs.map pyStr
  | Value.tuple xs => xs.map pyStr
  | _ => []

/-- Embedding of `sorted(set(xs) - set(ys))` on strings: the distinct elements of `xs`
absent from `ys`, in ascending order. -/
def sortedSetDiff (xs ys : List String) : List String :=
  List.insertionSort sle ((xs.filter (fun s => decide (s ∉ ys))).dedup)

/-- Embedding of `checks/schema.py::check_schema`. -/
def check_schema (dataset : Dataset) (_now : ℤ) : CheckResult :=
  let actual := _normalize_schema (dataset.get "schema")
  let expected := _normalize_schema (dataset.get "expected_schema")
  if actual.isEmpty ∨ expected.isEmpty then
    CheckResult.mk "schema" Status.YELLOW
      "Missing schema or expected_schema metadata."
      [("schema", Value.list (actual.map Value.str)),
       ("expected_schema", Value.list (expected.map Value.str))]
  else
    let missing := sortedSetDiff expected actual
    let extra := sortedSetDiff actual expected
    let sm :=
      if ¬ missing.isEmpty then (Status.RED, "Missing expected fields.")
      else if ¬ extra.isEmpty then (Status.YELLOW, "Schema has extra fields.")
      else (Status.GREEN, "Schema matches expected fields.")
    CheckResult.mk "schema" sm.1 sm.2
      [("missing", Value.list (missing.map Value.str)),
       ("extra", Value.list (extra.map Value.str))]

/-- Embedding of `checks/volume.py::_format_bytes`. -/
def _format_bytes (value : ℚ) : String :=
  if value ≥ 1024 ^ 4 then formatFixed 2 (value / 1024 ^ 4) ++ " TB"
  else if value ≥ 1024 ^ 3 then formatFixed 2 (value / 1024 ^ 3) ++ " GB"
  else if value ≥ 1024 ^ 2 then formatFixed 2 (value / 1024 ^ 2) ++ " MB"
  else if value ≥ 1024 then formatFixed 2 (value / 1024) ++ " KB"
  else formatFixed0 value ++ " B"

/-- Embedding of `checks/volume.py::check_volume`. -/
def check_volume (dataset : Dataset) (_now : ℤ) : CheckResult :=
  match dataset.get "bytes", dataset.get "expected_min_bytes" with
  | Value.none, em =>
    CheckResult.mk "volume" Status.YELLOW
      "Missing bytes or expected_min_bytes metadata."
      [("bytes", Value.none), ("expected_min_bytes", em)]
  | sb, Value.none =>
    CheckResult.mk "volume" Status.YELLOW
      "Missing bytes or expected_min_bytes metadata."
      [("bytes", sb), ("expected_min_bytes", Value.none)]
  | sb, em =>
    match pyFloat sb, pyFloat em with
    | Option.some size_value, Option.some expected_min_value =>
      if expected_min_value ≤ 0 then
        CheckResult.mk "volume" Status.YELLOW
          "expected_min_bytes must be greater than 0."
          [("expected_min_bytes", Value.float expected_min_value)]
      else
        let ratio := size_value / expected_min_value
        let sm :=
          if size_value ≥ expected_min_value then
            (Status.GREEN, "Volume meets expected minimum.")
          else if ratio ≥ 0.9 then
            (Status.YELLOW, "Volume slightly below expected minimum.")
          else
            (Status.RED, "Volume significantly below expected minimum.")
        CheckResult.mk "volume" sm.1 sm.2
          [("bytes", Value.float size_value),
           ("expected_min_bytes", Value.float expected_min_value),
           ("ratio", Value.float (roundTo3 ratio)),
           ("bytes_human", Value.str (_format_bytes size_value)),
           ("expected_min_human", Value.str (_format_bytes expected_min_value))]
    | _, _ =>
      CheckResult.mk "volume" Status.YELLOW
        "Invalid bytes or expected_min_bytes value."
        [("bytes", sb), ("expected_min_bytes", em)]

/-! ### Check registry, dataset registry, evaluation (src/registry.py, src/health.py) -/

/-- The value a registered runner returns: either a genuine `CheckResult`, or
any other Python value (the case `run_all` rejects with
`isinstance(result, CheckResult)`). -/
inductive RunnerOutput where
  | result (r : CheckResult)
  | invalid (v : Value)

/-- Embedding of the `isinstance(result, CheckResult)` test. -/
def RunnerOutput.isResult : RunnerOutput → Bool
  | RunnerOutput.result _ => true
  | RunnerOutput.invalid _ => false

structure CheckSpec where
  name : String
  description : String
  runner : Dataset → ℤ → RunnerOutput

/-- Embedding of `CheckRegistry`: the `_checks` dict, an insertion-ordered association
list from check name to spec; `register` keeps the keys distinct. -/
structure CheckRegistry where
  checks : List (String × CheckSpec)

def checkAlreadyMsg (name : String) : String := "Check already registered: " ++ name

def invalidResultMsg (name : String) : String :=
  "Check " ++ name ++ " returned invalid result type"

/-- Embedding of `CheckRegistry.register`: raises `ValueError` on a duplicate name,
otherwise stores the new spec (dict insertion appends). -/
def CheckRegistry.register (reg : CheckRegistry) (name description : String)
    (runner : Dataset → ℤ → RunnerOutput) : Except String CheckRegistry :=
  if name ∈ reg.checks.map Prod.fst then Except.error (checkAlreadyMsg name)
  else Except.ok ⟨reg.checks ++ [(name, CheckSpec.mk name description runner)]⟩

/-- Embedding of `CheckRegistry.list`: `[self._checks[name] for name in sorted(self._checks)]`. -/
def CheckRegistry.list (reg : CheckRegistry) : List CheckSpec :=
  (List.insertionSort sle (reg.checks.map Prod.fst)).filterMap
    (fun n => reg.checks.lookup n)

/-- The loop body of `run_all` over an explicit list of specs: run each
runner in order, raise `ValueError` at the first output that is not a
`CheckResult`, otherwise collect the results in order. -/
def runAllAux (dataset : Dataset) (now : ℤ) : List CheckSpec → Except String (List CheckResult)
  | [] => Except.ok []
  | spec :: rest =>
    match spec.runner dataset now with
    | RunnerOutput.invalid _ => Except.error (invalidResultMsg spec.name)
    | RunnerOutput.result r =>
      match runAllAux dataset now rest with
      | Except.error e => Except.error e
      | Except.ok results => Except.ok (r :: results)

/-- Embedding of `CheckRegistry.run_all`. -/
def CheckRegistry.run_all (reg : CheckRegistry) (dataset : Dataset) (now : ℤ) :
    Except String (List CheckResult) :=
  runAllAux dataset now reg.list

def datasetAlreadyMsg (name : String) : String := "Dataset already registered: " ++ name

/-- Embedding of `DatasetRegistry`: the `_datasets` dict keyed by dataset name. -/
structure DatasetRegistry where
  datasets : List (String × Dataset)

/-- Embedding of `DatasetRegistry.add`: raises `ValueError` on a duplicate name. -/
def DatasetRegistry.add (reg : DatasetRegistry) (dataset : Dataset) :
    Except String DatasetRegistry :=
  if dataset.name ∈ reg.datasets.map Prod.fst then
    Except.error (datasetAlreadyMsg dataset.name)
  else Except.ok ⟨reg.datasets ++ [(dataset.name, dataset)]⟩

/-- Embedding of `DatasetRegistry.list`: datasets sorted by name. -/
def DatasetRegistry.list (reg : DatasetRegistry) : List Dataset :=
  (List.insertionSort sle (reg.datasets.map Prod.fst)).filterMap
    (fun n => reg.datasets.lookup n)

/-- Embedding of `health.aggregate_status`: membership in the set of statuses.  RED wins,
then YELLOW, else GREEN (also for an empty collection). -/
def aggregate_status (results : List CheckResult) : Status :=
  let statuses := results.map CheckResult.status
  if Status.RED ∈ statuses then Status.RED
  else if Status.YELLOW ∈ statuses then Status.YELLOW
  else Status.GREEN

structure DatasetHealth where
  dataset : Dataset
  status : Status
  checks : List CheckResult

structure HealthReport where
  generated_at : ℤ
  datasets : List DatasetHealth

/-- Embedding of `health.evaluate_dataset`: run all checks, aggregate.  A `ValueError`
raised by `run_all` propagates. -/
def evaluate_dataset (dataset : Dataset) (registry : CheckRegistry) (now : ℤ) :
    Except String DatasetHealth :=
  match registry.run_all dataset now with
  | Except.error e => Except.error e
  | Except.ok check_results =>
    Except.ok (DatasetHealth.mk dataset (aggregate_status check_results) check_results)

/-- The list comprehension in `evaluate_all`, in input order; the first
raised error propagates. -/
def evalDatasets (datasets : List Dataset) (registry : CheckRegistry) (now : ℤ) :
    Except String (List DatasetHealth) :=
  match datasets with
  | [] => Except.ok []
  | d :: rest =>
    match evaluate_dataset d registry now with
    | Except.error e => Except.error e
    | Except.ok h =>
      match evalDatasets rest registry now with
      | Except.error e => Except.error e
      | Except.ok hs => Except.ok (h :: hs)

/-- Embedding of `health.evaluate_all`.  `sysNow` is the instant `datetime.now(timezone.utc)`
would return; `now or datetime.now(timezone.utc)` picks the caller's `now`
whenever it is not `None` (every `datetime` object is truthy). -/
def evaluate_all (datasets : List Dataset) (registry : CheckRegistry)
    (now : Option ℤ) (sysNow : ℤ) : Except String HealthReport :=
  let evaluation_time := now.getD sysNow
  match evalDatasets datasets registry evaluation_time with
  | Except.error e => Except.error e
  | Except.ok dataset_reports => Except.ok (HealthReport.mk evaluation_time dataset_reports)

/-! ### Properties of the string order -/

lemma charListLe_total : ∀ as bs, charListLe as bs = true ∨ charListLe bs as = true
  | [], _ => Or.inl rfl
  | _ :: _, [] => Or.inr rfl
  | a :: as, b :: bs => by
    rcases lt_trichotomy a b with hab | hab | hab
    · exact Or.inl (by simp [charListLe, hab])
    · subst hab
      rcases charListLe_total as bs with h | h
      · exact Or.inl (by simp [charListLe, lt_irrefl, h])
      · exact Or.inr (by simp [charListLe, lt_irrefl, h])
    · exact Or.inr (by simp [charListLe, hab])

lemma charListLe_trans :
    ∀ as bs cs, charListLe as bs = true → charListLe bs cs = true → charListLe as cs = true
  | [], _, _, _, _ => rfl
  | _ :: _, [], _, h, _ => by simp [charListLe] at h
  | _ :: _, _ :: _, [], _, h => by simp [charListLe] at h
  | a :: as, b :: bs, c :: cs, h1, h2 => by
    simp only [charListLe] at h1 h2 ⊢
    rcases lt_trichotomy a b with hab | hab | hab
    · by_cases hbc : b < c
      · simp [lt_trans hab hbc]
      · by_cases hcb : c < b
        · simp [hbc, hcb] at h2
        · have hbc2 : b = c := le_antisymm (not_lt.mp hcb) (not_lt.mp hbc)
          subst hbc2
          simp [hab]
    · subst hab
      simp only [lt_irrefl, if_false] at h1
      by_cases hbc : a < c
      · simp [hbc]
      · by_cases hcb : c < a
        · simp [hbc, hcb] at h2
        · have hbc2 : a = c := le_antisymm (not_lt.mp hcb) (not_lt.mp hbc)
          subst hbc2
          simp only [lt_irrefl, if_false] at h2 ⊢
          exact charListLe_trans as bs cs h1 h2
    · simp [lt_asymm hab, hab] at h1

lemma charListLe_antisymm :
    ∀ as bs, charListLe as bs = true → charListLe bs as = true → as = bs
  | [], [], _, _ => rfl
  | [], _ :: _, _, h => by simp [charListLe] at h
  | _ :: _, [], h, _ => by simp [charListLe] at h
  | a :: as, b :: bs, h1, h2 => by
    rcases lt_trichotomy a b with hab | hab | hab
    · simp [charListLe, lt_asymm hab, hab] at h2
    · subst hab
      simp only [charListLe, lt_irrefl, if_false] at h1 h2
      rw [charListLe_antisymm as bs h1 h2]
    · simp [charListLe, lt_asymm hab, hab] at h1

instance : IsTotal String sle :=
  ⟨fun a b => charListLe_total a.data b.data⟩

instance : IsTrans String sle :=
  ⟨fun a b c h1 h2 => charListLe_trans a.data b.data c.data h1 h2⟩

instance : IsAntisymm String sle := by
  refine ⟨fun a b h1 h2 => ?_⟩
  have h := charListLe_antisymm a.data b.data h1 h2
  cases a
  cases b
  exact congrArg String.mk h

instance : IsRefl String sle := by
  refine ⟨fun a => ?_⟩
  rcases charListLe_total a.data a.data with h | h <;> exact h

/-! ### Association-list and run_all lemmas -/

lemma lookup_some_of_mem_keys {β : Type} :
    ∀ (l : List (String × β)) (n : String), n ∈ l.map Prod.fst →
      ∃ v, l.lookup n = Option.some v ∧ (n, v) ∈ l
  | [], n, h => by simp at h
  | (k, v) :: rest, n, h => by
    by_cases hk : n = k
    · subst hk
      exact ⟨v, by simp [List.lookup], List.mem_cons_self _ _⟩
    · have hmem : n ∈ rest.map Prod.fst := by
        rcases List.mem_cons.mp h with h0 | h0
        · exact absurd h0 hk
        · exact h0
      rcases lookup_some_of_mem_keys rest n hmem with ⟨w, hw, hwm⟩
      refine ⟨w, ?_, List.mem_cons_of_mem _ hwm⟩
      have hbeq : (n == k) = false := beq_eq_false_iff_ne.mpr hk
      simp [List.lookup, hbeq, hw]

lemma lookup_eq_of_mem_nodup {β : Type} :
    ∀ (l : List (String × β)), (l.map Prod.fst).Nodup →
      ∀ n v, (n, v) ∈ l → l.lookup n = Option.some v
  | [], _, n, v, h => by simp at h
  | (k, w) :: rest, hnd, n, v, h => by
    rcases List.mem_cons.mp h with h0 | h0
    · rw [Prod.mk.injEq] at h0
      rw [h0.1, h0.2]
      simp [List.lookup]
    · have hk : n ≠ k := by
        intro he
        subst he
        have : n ∈ rest.map Prod.fst := List.mem_map.mpr ⟨(n, v), h0, rfl⟩
        exact (List.nodup_cons.mp (by simpa using hnd)).1 this
      have := lookup_eq_of_mem_nodup rest (List.nodup_cons.mp (by simpa using hnd)).2 n v h0
      have hbeq : (n == k) = false := beq_eq_false_iff_ne.mpr hk
      simp [List.lookup, hbeq, this]

lemma runAllAux_ok_iff (dataset : Dataset) (now : ℤ) :
    ∀ (specs : List CheckSpec) (rs : List CheckResult),
      runAllAux dataset now specs = Except.ok rs ↔
        specs.map (fun s => s.runner dataset now) = rs.map RunnerOutput.result := by
  intro specs
  induction specs with
  | nil =>
    intro rs
    cases rs <;> simp [runAllAux]
  | cons spec rest ih =>
    intro rs
    simp only [runAllAux, List.map_cons]
    cases hr : spec.runner dataset now with
    | invalid v =>
      constructor
      · intro h
        exact absurd h (by simp)
      · intro h
        cases rs with
        | nil => simp at h
        | cons r0 rs0 => simp at h
    | result r =>
      cases hrec : runAllAux dataset now rest with
      | error e =>
        constructor
        · intro h
          exact absurd h (by simp)
        · intro h
          cases rs with
          | nil => simp at h
          | cons r0 rs0 =>
            simp only [List.map_cons, List.cons.injEq] at h
            have := (ih rs0).mpr h.2
            rw [this] at hrec
            exact absurd hrec (by simp)
      | ok results =>
        constructor
        · intro h
          have hrs : rs = r :: results := by
            have := h
            simp only [Except.ok.injEq] at this
            exact this.symm
          subst hrs
          simp only [List.map_cons, List.cons.injEq]
          exact ⟨by simp, (ih results).mp hrec⟩
        · intro h
          cases rs with
          | nil => simp at h
          | cons r0 rs0 =>
            simp only [List.map_cons, List.cons.injEq, RunnerOutput.result.injEq] at h
            have h2 := (ih rs0).mpr h.2
            rw [h2] at hrec
            simp only [Except.ok.injEq] at hrec
            rw [h.1, hrec]

lemma runAllAux_error_iff (dataset : Dataset) (now : ℤ) :
    ∀ (specs : List CheckSpec),
      (∃ e, runAllAux dataset now specs = Except.error e) ↔
        ∃ s ∈ specs, (s.runner dataset now).isResult = false
  | [] => by simp [runAllAux]
  | spec :: rest => by
    simp only [runAllAux]
    cases hr : spec.runner dataset now with
    | invalid v =>
      constructor
      · intro _
        exact ⟨spec, List.mem_cons_self _ _, by rw [hr]; rfl⟩
      · intro _
        exact ⟨invalidResultMsg spec.name, rfl⟩
    | result r =>
      cases hrec : runAllAux dataset now rest with
      | error e =>
        constructor
        · intro _
          rcases (runAllAux_error_iff dataset now rest).mp ⟨e, hrec⟩ with ⟨s, hs, hbad⟩
          exact ⟨s, List.mem_cons_of_mem _ hs, hbad⟩
        · intro _
          exact ⟨e, rfl⟩
      | ok results =>
        constructor
        · rintro ⟨e, he⟩
          exact absurd he (by simp)
        · rintro ⟨s, hs, hbad⟩
          rcases List.mem_cons.mp hs with h0 | h0
          · subst h0
            rw [hr] at hbad
            exact absurd hbad (by simp [RunnerOutput.isResult])
          · rcases (runAllAux_error_iff dataset now rest).mpr ⟨s, h0, hbad⟩ with ⟨e, he⟩
            rw [he] at hrec
            exact absurd hrec (by simp)

lemma runAllAux_first_error (dataset : Dataset) (now : ℤ) :
    ∀ (pre : List CheckSpec) (bad : CheckSpec) (post : List CheckSpec),
      (∀ s ∈ pre, (s.runner dataset now).isResult = true) →
      (bad.runner dataset now).isResult = false →
      runAllAux dataset now (pre ++ bad :: post) = Except.error (invalidResultMsg bad.name)
  | [], bad, post, _, hbad => by
    simp only [List.nil_append, runAllAux]
    cases hr : bad.runner dataset now with
    | invalid v => rfl
    | result r => rw [hr] at hbad; simp [RunnerOutput.isResult] at hbad
  | p :: pre, bad, post, hpre, hbad => by
    simp only [List.cons_append, runAllAux]
    cases hr : p.runner dataset now with
    | invalid v =>
      have := hpre p (List.mem_cons_self _ _)
      rw [hr] at this
      simp [RunnerOutput.isResult] at this
    | result r =>
      have hrest := runAllAux_first_error dataset now pre bad post
        (fun s hs => hpre s (List.mem_cons_of_mem _ hs)) hbad
      simp [hrest]

lemma mem_of_lookup_some {β : Type} :
    ∀ (l : List (String × β)) (n : String) (v : β),
      l.lookup n = Option.some v → (n, v) ∈ l
  | [], n, v, h => by simp [List.lookup] at h
  | (k, w) :: rest, n, v, h => by
    by_cases hk : n = k
    · subst hk
      simp [List.lookup] at h
      simp [h]
    · have hbeq : (n == k) = false := beq_eq_false_iff_ne.mpr hk
      simp only [List.lookup, hbeq] at h
      exact List.mem_cons_of_mem _ (mem_of_lookup_some rest n v h)

lemma runAllAux_ok_of_valid (dataset : Dataset) (now : ℤ) (specs : List CheckSpec)
    (h : ∀ s ∈ specs, (s.runner dataset now).isResult = true) :
    ∃ rs, runAllAux dataset now specs = Except.ok rs ∧
      rs.map RunnerOutput.result = specs.map (fun s => s.runner dataset now) := by
  cases hres : runAllAux dataset now specs with
  | error e =>
    rcases (runAllAux_error_iff dataset now specs).mp ⟨e, hres⟩ with ⟨s, hs, hbad⟩
    rw [h s hs] at hbad
    simp at hbad
  | ok rs =>
    exact ⟨rs, rfl, ((runAllAux_ok_iff dataset now specs rs).mp hres).symm⟩

lemma filterMap_lookup_map_name (checks : List (String × CheckSpec))
    (hname : ∀ p ∈ checks, (Prod.snd p).name = p.1) :
    ∀ ns : List String, (∀ n ∈ ns, n ∈ checks.map Prod.fst) →
      ((ns.filterMap (fun n => checks.lookup n)).map CheckSpec.name = ns)
  | [], _ => by simp
  | n :: ns, h => by
    rcases lookup_some_of_mem_keys checks n (h n (List.mem_cons_self _ _)) with ⟨v, hv, hvm⟩
    have hvn : v.name = n := hname (n, v) hvm
    simp only [List.filterMap_cons, hv, List.map_cons, hvn]
    rw [filterMap_lookup_map_name checks hname ns
      (fun m hm => h m (List.mem_cons_of_mem _ hm))]

/-! ### Claim C1: aggregate_status -/

/-- C1: `aggregate_status` returns RED iff some input result has status RED;
when no input is RED it returns YELLOW iff some input is YELLOW; when neither
occurs it returns GREEN; and on the empty collection it returns GREEN. -/
theorem aggregate_status_spec (results : List CheckResult) :
    (aggregate_status results = Status.RED ↔ ∃ r ∈ results, r.status = Status.RED)
    ∧ ((¬ ∃ r ∈ results, r.status = Status.RED) →
        (aggregate_status results = Status.YELLOW ↔ ∃ r ∈ results, r.status = Status.YELLOW))
    ∧ ((¬ ∃ r ∈ results, r.status = Status.RED) →
        (¬ ∃ r ∈ results, r.status = Status.YELLOW) →
        aggregate_status results = Status.GREEN)
    ∧ (results = [] → aggregate_status results = Status.GREEN) := by
  have he : aggregate_status results =
      (if ∃ r ∈ results, r.status = Status.RED then Status.RED
       else if ∃ r ∈ results, r.status = Status.YELLOW then Status.YELLOW
       else Status.GREEN) := by
    simp [aggregate_status, List.mem_map]
  rw [he]
  split_ifs with h1 h2 <;> refine ⟨?_, ?_, ?_, ?_⟩ <;> simp_all <;>
    rintro rfl <;> simp_all

theorem aggregate_status_spec_witness :
    aggregate_status [] = Status.GREEN ∧
      aggregate_status [CheckResult.mk "c" Status.YELLOW "" []] = Status.YELLOW := by
  constructor
  · exact (aggregate_status_spec []).2.2.2 rfl
  · exact ((aggregate_status_spec [CheckResult.mk "c" Status.YELLOW "" []]).2.1
      (by simp)).mpr ⟨CheckResult.mk "c" Status.YELLOW "" [], by simp, rfl⟩

/-! ### Claim C3: CheckRegistry.list and run_all ordering -/

/-- C3: for every reachable registry state (`hkeys`, `hname` are the dict
invariants `register` maintains) whose runners all return `CheckResult`s,
`list()` returns the registered specs sorted by name ascending (a
permutation of the stored entries, each the one registered under its name),
and `run_all` returns exactly one result per registered check, in that same
name order: the results are pointwise the runner outputs of `list()`. -/
theorem registry_list_run_all_spec (reg : CheckRegistry) (dataset : Dataset) (now : ℤ)
    (hkeys : (reg.checks.map Prod.fst).Nodup)
    (hname : ∀ p ∈ reg.checks, (Prod.snd p).name = p.1)
    (hvalid : ∀ s ∈ reg.list, (s.runner dataset now).isResult = true) :
    List.Sorted sle (reg.list.map CheckSpec.name) ∧
    (reg.list.map CheckSpec.name).Perm (reg.checks.map Prod.fst) ∧
    (∀ s ∈ reg.list, (s.name, s) ∈ reg.checks) ∧
    (∀ p ∈ reg.checks, Prod.snd p ∈ reg.list) ∧
    ∃ rs, reg.run_all dataset now = Except.ok rs ∧
      rs.map RunnerOutput.result = reg.list.map (fun s => s.runner dataset now) ∧
      rs.length = reg.checks.length := by
  have hmap : reg.list.map CheckSpec.name =
      List.insertionSort sle (reg.checks.map Prod.fst) := by
    unfold CheckRegistry.list
    exact filterMap_lookup_map_name reg.checks hname _
      (fun n hn => (List.perm_insertionSort sle _).mem_iff.mp hn)
  refine ⟨?_, ?_, ?_, ?_, ?_⟩
  · rw [hmap]
    exact List.sorted_insertionSort sle _
  · rw [hmap]
    exact List.perm_insertionSort sle _
  · intro s hs
    simp only [CheckRegistry.list] at hs
    rcases List.mem_filterMap.mp hs with ⟨n, _hn, hlook⟩
    have hmem := mem_of_lookup_some reg.checks n s hlook
    have hn := hname (n, s) hmem
    rw [hn]
    exact hmem
  · intro p hp
    obtain ⟨n, v⟩ := p
    have hlook := lookup_eq_of_mem_nodup reg.checks hkeys n v hp
    have hnmem : n ∈ List.insertionSort sle (reg.checks.map Prod.fst) :=
      (List.perm_insertionSort sle _).mem_iff.mpr (List.mem_map.mpr ⟨(n, v), hp, rfl⟩)
    simp only [CheckRegistry.list]
    exact List.mem_filterMap.mpr ⟨n, hnmem, hlook⟩
  · obtain ⟨rs, hok, hmapeq⟩ := runAllAux_ok_of_valid dataset now reg.list hvalid
    refine ⟨rs, hok, hmapeq, ?_⟩
    have h1 : rs.length = reg.list.length := by
      have := congrArg List.length hmapeq
      simpa using this
    have h2 : reg.list.length = (reg.checks.map Prod.fst).length := by
      have hlen := congrArg List.length hmap
      rw [List.length_map] at hlen
      rw [hlen]
      exact (List.perm_insertionSort sle _).length_eq
    rw [h1, h2, List.length_map]

def crOK : CheckResult := CheckResult.mk "ok" Status.GREEN "fine" []

def regBA : CheckRegistry :=
  CheckRegistry.mk
    [("beta", CheckSpec.mk "beta" "B check" (fun _ _ => RunnerOutput.result crOK)),
     ("alpha", CheckSpec.mk "alpha" "A check" (fun _ _ => RunnerOutput.result crOK))]

def dsEmpty : Dataset := Dataset.mk "ds" "" "" "" [] ""

theorem registry_list_run_all_spec_witness :
    List.Sorted sle (regBA.list.map CheckSpec.name) ∧
      ∃ rs, regBA.run_all dsEmpty 0 = Except.ok rs ∧ rs.length = regBA.checks.length := by
  obtain ⟨h1, _h2, _h3, _h4, rs, hok, _hmapeq, hlen⟩ :=
    registry_list_run_all_spec regBA dsEmpty 0 (by decide) (by decide) (by decide)
  exact ⟨h1, rs, hok, hlen⟩

/-! ### Claim C9: run_all rejects non-CheckResult returns -/

/-- C9: `run_all` raises exactly when some registered runner returns a value
that is not a `CheckResult`; it raises the `ValueError` naming the first
offending check in name order, so no check after the offending one
contributes (`post` is arbitrary), and every successful output consists
exactly of the runners' genuine `CheckResult`s — an invalid value is never
included. -/
theorem run_all_invalid_spec (reg : CheckRegistry) (dataset : Dataset) (now : ℤ) :
    ((∃ e, reg.run_all dataset now = Except.error e) ↔
      ∃ s ∈ reg.list, (s.runner dataset now).isResult = false)
    ∧ (∀ pre bad post, reg.list = pre ++ bad :: post →
        (∀ s ∈ pre, (s.runner dataset now).isResult = true) →
        (bad.runner dataset now).isResult = false →
        reg.run_all dataset now = Except.error (invalidResultMsg bad.name))
    ∧ (∀ rs, reg.run_all dataset now = Except.ok rs →
        rs.map RunnerOutput.result = reg.list.map (fun s => s.runner dataset now)) := by
  refine ⟨runAllAux_error_iff dataset now reg.list, ?_, ?_⟩
  · intro pre bad post hsplit hpre hbad
    show runAllAux dataset now reg.list = _
    rw [hsplit]
    exact runAllAux_first_error dataset now pre bad post hpre hbad
  · intro rs h
    exact ((runAllAux_ok_iff dataset now reg.list rs).mp h).symm

def specBad : CheckSpec :=
  CheckSpec.mk "aaa" "bad check" (fun _ _ => RunnerOutput.invalid (Value.int 3))

def specGood : CheckSpec :=
  CheckSpec.mk "zzz" "good check" (fun _ _ => RunnerOutput.result crOK)

def regBad : CheckRegistry := CheckRegistry.mk [("zzz", specGood), ("aaa", specBad)]

theorem run_all_invalid_spec_witness :
    regBad.run_all dsEmpty 0 = Except.error "Check aaa returned invalid result type" := by
  exact (run_all_invalid_spec regBad dsEmpty 0).2.1 [] specBad [specGood] rfl
    (by simp) rfl

/-! ### Claim C8: duplicate registration always fails without mutation -/

/-- C8: registering a check under an existing name, or adding a dataset
whose name exists, raises the duplicate-name `ValueError`.  In this
embedding a raising call returns `Except.error` and produces no new
registry value, so the caller's stored contents are exactly as before: in
particular no `Except.ok` state exists. -/
theorem register_add_duplicate_spec (creg : CheckRegistry) (dreg : DatasetRegistry)
    (name description : String) (runner : Dataset → ℤ → RunnerOutput) (dataset : Dataset) :
    (name ∈ creg.checks.map Prod.fst →
      creg.register name description runner = Except.error (checkAlreadyMsg name)
      ∧ ∀ reg', creg.register name description runner ≠ Except.ok reg')
    ∧ (dataset.name ∈ dreg.datasets.map Prod.fst →
      dreg.add dataset = Except.error (datasetAlreadyMsg dataset.name)
      ∧ ∀ reg', dreg.add dataset ≠ Except.ok reg') := by
  constructor
  · intro h
    have he : creg.register name description runner = Except.error (checkAlreadyMsg name) := by
      simp [CheckRegistry.register, h]
    refine ⟨he, fun reg' hc => ?_⟩
    rw [he] at hc
    exact absurd hc (by simp)
  · intro h
    have he : dreg.add dataset = Except.error (datasetAlreadyMsg dataset.name) := by
      simp [DatasetRegistry.add, h]
    refine ⟨he, fun reg' hc => ?_⟩
    rw [he] at hc
    exact absurd hc (by simp)

theorem register_add_duplicate_spec_witness :
    regBA.register "beta" "again" (fun _ _ => RunnerOutput.result crOK) =
        Except.error "Check already registered: beta" ∧
      (DatasetRegistry.mk [("ds", dsEmpty)]).add dsEmpty =
        Except.error "Dataset already registered: ds" := by
  obtain ⟨h1, h2⟩ := register_add_duplicate_spec regBA (DatasetRegistry.mk [("ds", dsEmpty)])
    "beta" "again" (fun _ _ => RunnerOutput.result crOK) dsEmpty
  exact ⟨(h1 (by decide)).1, (h2 (by decide)).1⟩

/-! ### Claim C2: evaluate_all -/

lemma evaluate_dataset_ok_dataset (d : Dataset) (reg : CheckRegistry) (t : ℤ)
    (v : DatasetHealth) (h : evaluate_dataset d reg t = Except.ok v) : v.dataset = d := by
  unfold evaluate_dataset at h
  cases hr : reg.run_all d t with
  | error e => rw [hr] at h; simp at h
  | ok rs =>
    rw [hr] at h
    simp only [Except.ok.injEq] at h
    rw [← h]

lemma evalDatasets_spec (reg : CheckRegistry) (t : ℤ) :
    ∀ (ds : List Dataset) (hs : List DatasetHealth),
      evalDatasets ds reg t = Except.ok hs →
      hs.map DatasetHealth.dataset = ds ∧
      ∀ i (h1 : i < ds.length) (h2 : i < hs.length),
        evaluate_dataset (ds.get ⟨i, h1⟩) reg t = Except.ok (hs.get ⟨i, h2⟩)
  | [], hs, h => by
    simp only [evalDatasets, Except.ok.injEq] at h
    subst h
    exact ⟨rfl, fun i h1 _ => absurd h1 (by simp)⟩
  | d :: rest, hs, h => by
    simp only [evalDatasets] at h
    cases hd : evaluate_dataset d reg t with
    | error e => rw [hd] at h; simp at h
    | ok v =>
      rw [hd] at h
      cases hr : evalDatasets rest reg t with
      | error e => rw [hr] at h; simp at h
      | ok vs =>
        rw [hr] at h
        simp only [Except.ok.injEq] at h
        subst h
        obtain ⟨hmap, hidx⟩ := evalDatasets_spec reg t rest vs hr
        refine ⟨?_, ?_⟩
        · simp [List.map_cons, hmap, evaluate_dataset_ok_dataset d reg t v hd]
        · intro i h1 h2
          cases i with
          | zero => simpa using hd
          | succ i => simpa using hidx i (by simpa using h1) (by simpa using h2)

/-- C2 (amended): `evaluate_all` resolves `now` once — to the caller's
override when supplied, otherwise to the current instant — and applies that
single instant to every dataset's evaluation; `generated_at` is the resolved
now; but the report's datasets appear in the order of the input sequence,
not re-sorted by name (the CLI passes `DatasetRegistry.list()`, which is
already name-ascending). -/
theorem evaluate_all_spec (datasets : List Dataset) (registry : CheckRegistry)
    (now : Option ℤ) (sysNow : ℤ) (report : HealthReport)
    (h : evaluate_all datasets registry now sysNow = Except.ok report) :
    report.generated_at = now.getD sysNow ∧
    report.datasets.map DatasetHealth.dataset = datasets ∧
    ∀ i (h1 : i < datasets.length) (h2 : i < report.datasets.length),
      evaluate_dataset (datasets.get ⟨i, h1⟩) registry (now.getD sysNow) =
        Except.ok (report.datasets.get ⟨i, h2⟩) := by
  simp only [evaluate_all] at h
  cases hr : evalDatasets datasets registry (now.getD sysNow) with
  | error e => rw [hr] at h; simp at h
  | ok hs =>
    rw [hr] at h
    simp only [Except.ok.injEq] at h
    subst h
    obtain ⟨hmap, hidx⟩ := evalDatasets_spec registry (now.getD sysNow) datasets hs hr
    exact ⟨rfl, hmap, hidx⟩

def dsA : Dataset := Dataset.mk "a" "" "" "" [] ""

def dsB : Dataset := Dataset.mk "b" "" "" "" [] ""

def emptyReg : CheckRegistry := CheckRegistry.mk []

/-- C2 counterexample: with the datasets supplied in the order `[b, a]`,
the report lists them as `["b", "a"]` — the input order — which is not
name-ascending, refuting "ordered by dataset name ascending, regardless of
the order of the input sequence". -/
theorem evaluate_all_order_counterexample :
    (evaluate_all [dsB, dsA] emptyReg (Option.some 0) 0).map
        (fun rep => rep.datasets.map (fun h => h.dataset.name)) = Except.ok ["b", "a"]
    ∧ ¬ List.Sorted sle ["b", "a"] := by
  exact ⟨rfl, by decide⟩

theorem evaluate_all_spec_witness :
    (HealthReport.mk 5 [DatasetHealth.mk dsA Status.GREEN []]).generated_at =
      (Option.some (5 : ℤ)).getD 3 :=
  (evaluate_all_spec [dsA] emptyReg (Option.some 5) 3
    (HealthReport.mk 5 [DatasetHealth.mk dsA Status.GREEN []]) rfl).1

/-! ### Freshness check lemmas and claim C4 -/

lemma roundHE_intCast (n : ℤ) : roundHE ((n : ℤ) : ℚ) = n := by
  unfold roundHE
  rw [Int.floor_intCast]
  norm_num

lemma fromtimestamp_int (n : ℤ) (hmin : datetimeMinUS ≤ n * 1000000)
    (hmax : n * 1000000 ≤ datetimeMaxUS) :
    fromtimestamp ((n : ℤ) : ℚ) = Except.ok (n * 1000000) := by
  have hcast : ((n : ℤ) : ℚ) * 1000000 = ((n * 1000000 : ℤ) : ℚ) := by
    push_cast
    ring
  have hin : ¬ (n * 1000000 < datetimeMinUS ∨ datetimeMaxUS < n * 1000000) := by
    push_neg
    exact ⟨hmin, hmax⟩
  unfold fromtimestamp
  rw [hcast, roundHE_intCast, if_neg hin]

lemma parse_datetime_int (n : ℤ) (hmin : datetimeMinUS ≤ n * 1000000)
    (hmax : n * 1000000 ≤ datetimeMaxUS) :
    parse_datetime (Value.int n) = Except.ok (Option.some (n * 1000000)) := by
  simp only [parse_datetime]
  rw [fromtimestamp_int n hmin hmax]
  rfl

lemma parse_datetime_int_raise (n : ℤ)
    (h : n * 1000000 < datetimeMinUS ∨ datetimeMaxUS < n * 1000000) :
    parse_datetime (Value.int n) = Except.error fromtimestampMsg := by
  have hcast : ((n : ℤ) : ℚ) * 1000000 = ((n * 1000000 : ℤ) : ℚ) := by
    push_cast
    ring
  have hts : fromtimestamp ((n : ℤ) : ℚ) = Except.error fromtimestampMsg := by
    unfold fromtimestamp
    rw [hcast, roundHE_intCast, if_pos h]
  simp only [parse_datetime]
  rw [hts]
  rfl

lemma check_freshness_raise (dataset : Dataset) (now : ℤ) (e : String)
    (hp : parse_datetime (dataset.get "last_updated") = Except.error e) :
    check_freshness dataset now = Except.error e := by
  simp [check_freshness, hp]

lemma check_freshness_none (dataset : Dataset) (now : ℤ)
    (hp : parse_datetime (dataset.get "last_updated") = Except.ok Option.none) :
    resultStatus (check_freshness dataset now) = Option.some Status.YELLOW := by
  simp [resultStatus, check_freshness, hp]

lemma check_freshness_missing_fh (dataset : Dataset) (now : ℤ) (t : ℤ)
    (hp : parse_datetime (dataset.get "last_updated") = Except.ok (Option.some t))
    (h : dataset.get "freshness_hours" = Value.none ∨
      pyFloat (dataset.get "freshness_hours") = Option.none) :
    resultStatus (check_freshness dataset now) = Option.some Status.YELLOW := by
  rcases h with hv | hf
  · simp [resultStatus, check_freshness, hp, hv]
  · cases hv : dataset.get "freshness_hours" <;>
      (rw [hv] at hf; simp [resultStatus, check_freshness, hp, hv, hf])

lemma check_freshness_valid (dataset : Dataset) (now : ℤ) (t : ℤ) (sla : ℚ)
    (hp : parse_datetime (dataset.get "last_updated") = Except.ok (Option.some t))
    (hne : dataset.get "freshness_hours" ≠ Value.none)
    (hf : pyFloat (dataset.get "freshness_hours") = Option.some sla) :
    resultStatus (check_freshness dataset now) =
      Option.some
        (if ((now - t : ℤ) : ℚ) / 1000000 / 3600 ≤ sla then Status.GREEN
         else if ((now - t : ℤ) : ℚ) / 1000000 / 3600 ≤ sla * 1.5 then Status.YELLOW
         else Status.RED) := by
  cases hv : dataset.get "freshness_hours" <;>
    first
      | exact absurd hv hne
      | (rw [hv] at hf; simp [resultStatus, check_freshness, hp, hv, hf])

def dsNegSla : Dataset :=
  Dataset.mk "neg" "" "" ""
    [("last_updated", Value.int 7200), ("freshness_hours", Value.int (-2))] ""

/-- C4 counterexample: with `last_updated` two hours in the future of `now`
and `freshness_hours = -2`, the age (−2h) exceeds 1.5×SLA (−3h), so the
claim's RED clause applies; but the code's `age <= sla` branch fires first
and returns GREEN.  The claim's unguarded "RED when age > 1.5×SLA" is false
for negative SLAs. -/
theorem check_freshness_red_counterexample :
    parse_datetime (dsNegSla.get "last_updated") = Except.ok (Option.some 7200000000)
    ∧ pyFloat (dsNegSla.get "freshness_hours") = Option.some (-2)
    ∧ (-2 : ℚ) * 1.5 < ((0 - 7200000000 : ℤ) : ℚ) / 1000000 / 3600
    ∧ resultStatus (check_freshness dsNegSla 0) = Option.some Status.GREEN
    ∧ resultStatus (check_freshness dsNegSla 0) ≠ Option.some Status.RED := by
  have hp : parse_datetime (dsNegSla.get "last_updated") =
      Except.ok (Option.some 7200000000) := by
    have h72 := parse_datetime_int 7200 (by decide) (by decide)
    norm_num at h72
    simpa [dsNegSla, Dataset.get, List.lookup] using h72
  have hf : pyFloat (dsNegSla.get "freshness_hours") = Option.some (-2) := by
    simp [dsNegSla, Dataset.get, List.lookup, pyFloat]
  have hst : resultStatus (check_freshness dsNegSla 0) = Option.some Status.GREEN := by
    rw [check_freshness_valid dsNegSla 0 7200000000 (-2) hp
      (by simp [dsNegSla, Dataset.get, List.lookup]) hf]
    norm_num
  refine ⟨hp, hf, by norm_num, hst, ?_⟩
  rw [hst]
  simp

/-- C4 (amended): when `last_updated` parses to an instant (no raise) and
`freshness_hours` coerces to a float: GREEN iff age ≤ SLA; YELLOW iff
SLA < age ≤ 1.5×SLA; RED iff the age exceeds the SLA and exceeds 1.5×SLA
(for an SLA ≥ 0 this is exactly age > 1.5×SLA; the conjunct is forced by
the GREEN branch's precedence when the SLA is negative).  A `last_updated`
that parses to `None` (missing, unparseable text, or a non-timestamp type),
a missing `freshness_hours`, or a `freshness_hours` that `float()` rejects,
give YELLOW.  A numeric `last_updated` outside `datetime`'s range makes
`datetime.fromtimestamp` raise inside `parse_datetime` and `check_freshness`
propagates that error instead of returning any result (the code bug
recorded under C7).  Age is `(now - last_updated).total_seconds() / 3600`. -/
theorem check_freshness_spec (dataset : Dataset) (now : ℤ) :
    (∀ (t : ℤ) (sla : ℚ),
      parse_datetime (dataset.get "last_updated") = Except.ok (Option.some t) →
      dataset.get "freshness_hours" ≠ Value.none →
      pyFloat (dataset.get "freshness_hours") = Option.some sla →
      ((resultStatus (check_freshness dataset now) = Option.some Status.GREEN ↔
          ((now - t : ℤ) : ℚ) / 1000000 / 3600 ≤ sla)
        ∧ (resultStatus (check_freshness dataset now) = Option.some Status.YELLOW ↔
          (sla < ((now - t : ℤ) : ℚ) / 1000000 / 3600 ∧
            ((now - t : ℤ) : ℚ) / 1000000 / 3600 ≤ sla * 1.5))
        ∧ (resultStatus (check_freshness dataset now) = Option.some Status.RED ↔
          (sla < ((now - t : ℤ) : ℚ) / 1000000 / 3600 ∧
            sla * 1.5 < ((now - t : ℤ) : ℚ) / 1000000 / 3600))))
    ∧ (parse_datetime (dataset.get "last_updated") = Except.ok Option.none →
        resultStatus (check_freshness dataset now) = Option.some Status.YELLOW)
    ∧ (∀ (t : ℤ),
        parse_datetime (dataset.get "last_updated") = Except.ok (Option.some t) →
        (dataset.get "freshness_hours" = Value.none ∨
          pyFloat (dataset.get "freshness_hours") = Option.none) →
        resultStatus (check_freshness dataset now) = Option.some Status.YELLOW)
    ∧ (∀ e, parse_datetime (dataset.get "last_updated") = Except.error e →
        check_freshness dataset now = Except.error e) := by
  refine ⟨?_, check_freshness_none dataset now, check_freshness_missing_fh dataset now,
    fun e hp => check_freshness_raise dataset now e hp⟩
  intro t sla hp hne hf
  rw [check_freshness_valid dataset now t sla hp hne hf]
  split_ifs with h1 h2
  · exact ⟨⟨fun _ => h1, fun _ => rfl⟩,
      ⟨fun hx => by simp at hx, fun hx => absurd h1 (not_le.mpr hx.1)⟩,
      ⟨fun hx => by simp at hx, fun hx => absurd h1 (not_le.mpr hx.1)⟩⟩
  · exact ⟨⟨fun hx => by simp at hx, fun hx => absurd hx h1⟩,
      ⟨fun _ => ⟨not_le.mp h1, h2⟩, fun _ => rfl⟩,
      ⟨fun hx => by simp at hx, fun hx => absurd h2 (not_le.mpr hx.2)⟩⟩
  · exact ⟨⟨fun hx => by simp at hx, fun hx => absurd hx h1⟩,
      ⟨fun hx => by simp at hx, fun hx => absurd hx.2 h2⟩,
      ⟨fun _ => ⟨not_le.mp h1, not_le.mp h2⟩, fun _ => rfl⟩⟩

def dFresh : Dataset :=
  Dataset.mk "events" "" "" ""
    [("last_updated", Value.str "2026-02-07T12:30:00Z"), ("freshness_hours", Value.int 12)] ""

theorem check_freshness_spec_witness :
    resultStatus (check_freshness dFresh 1770489000000000) = Option.some Status.GREEN :=
  ((check_freshness_spec dFresh 1770489000000000).1 1770467400000000 12
    (by decide)
    (by simp [dFresh, Dataset.get, List.lookup])
    (by simp [dFresh, Dataset.get, List.lookup, pyFloat])).1.mpr (by norm_num)

/-! ### Completeness and volume lemmas, claim C5 -/

lemma check_completeness_missing (dataset : Dataset) (now : ℤ)
    (h : dataset.get "record_count" = Value.none ∨
      dataset.get "expected_min_records" = Value.none) :
    (check_completeness dataset now).status = Status.YELLOW := by
  rcases h with h | h
  · simp [check_completeness, h]
  · cases h1 : dataset.get "record_count" <;> simp [check_completeness, h1, h]

lemma check_completeness_valid (dataset : Dataset) (now : ℤ) (c e : ℚ)
    (h1 : dataset.get "record_count" ≠ Value.none)
    (h2 : dataset.get "expected_min_records" ≠ Value.none)
    (hc : pyFloat (dataset.get "record_count") = Option.some c)
    (he : pyFloat (dataset.get "expected_min_records") = Option.some e) :
    check_completeness dataset now =
      (if e ≤ 0 then
        CheckResult.mk "completeness" Status.YELLOW
          "expected_min_records must be greater than 0."
          [("expected_min_records", Value.float e)]
      else
        CheckResult.mk "completeness"
          (if c ≥ e then Status.GREEN
           else if c / e ≥ 0.9 then Status.YELLOW else Status.RED)
          (if c ≥ e then "Record count meets expected minimum."
           else if c / e ≥ 0.9 then "Record count slightly below expected minimum."
           else "Record count significantly below expected minimum.")
          [("record_count", Value.float c), ("expected_min_records", Value.float e),
           ("ratio", Value.float (roundTo3 (c / e)))]) := by
  cases hv1 : dataset.get "record_count" <;>
    first
      | exact absurd hv1 h1
      | (cases hv2 : dataset.get "expected_min_records" <;>
          first
            | exact absurd hv2 h2
            | (rw [hv1] at hc
               rw [hv2] at he
               simp only [pyFloat, Option.some.injEq] at hc he
               first
                 | exact absurd hc (by simp)
                 | exact absurd he (by simp)
                 | simp [check_completeness, pyFloat, hv1, hv2, hc, he, apply_ite Prod.fst,
                     apply_ite Prod.snd]))

lemma check_completeness_invalid (dataset : Dataset) (now : ℤ)
    (h1 : dataset.get "record_count" ≠ Value.none)
    (h2 : dataset.get "expected_min_records" ≠ Value.none)
    (h : pyFloat (dataset.get "record_count") = Option.none ∨
      pyFloat (dataset.get "expected_min_records") = Option.none) :
    (check_completeness dataset now).status = Status.YELLOW := by
  rcases h with h | h
  · cases hv1 : dataset.get "record_count" <;>
      first
        | exact absurd hv1 h1
        | (rw [hv1] at h
           cases hv2 : dataset.get "expected_min_records" <;>
             first
               | exact absurd hv2 h2
               | simp [check_completeness, hv1, hv2, h])
  · rcases hq1 : pyFloat (dataset.get "record_count") with _ | c <;>
      (cases hv1 : dataset.get "record_count" <;>
        first
          | exact absurd hv1 h1
          | (cases hv2 : dataset.get "expected_min_records" <;>
              first
                | exact absurd hv2 h2
                | (rw [hv1] at hq1
                   rw [hv2] at h
                   simp [check_completeness, hv1, hv2, hq1, h])))

lemma check_volume_missing (dataset : Dataset) (now : ℤ)
    (h : dataset.get "bytes" = Value.none ∨
      dataset.get "expected_min_bytes" = Value.none) :
    (check_volume dataset now).status = Status.YELLOW := by
  rcases h with h | h
  · simp [check_volume, h]
  · cases h1 : dataset.get "bytes" <;> simp [check_volume, h1, h]

lemma check_volume_valid (dataset : Dataset) (now : ℤ) (c e : ℚ)
    (h1 : dataset.get "bytes" ≠ Value.none)
    (h2 : dataset.get "expected_min_bytes" ≠ Value.none)
    (hc : pyFloat (dataset.get "bytes") = Option.some c)
    (he : pyFloat (dataset.get "expected_min_bytes") = Option.some e) :
    check_volume dataset now =
      (if e ≤ 0 then
        CheckResult.mk "volume" Status.YELLOW
          "expected_min_bytes must be greater than 0."
          [("expected_min_bytes", Value.float e)]
      else
        CheckResult.mk "volume"
          (if c ≥ e then Status.GREEN
           else if c / e ≥ 0.9 then Status.YELLOW else Status.RED)
          (if c ≥ e then "Volume meets expected minimum."
           else if c / e ≥ 0.9 then "Volume slightly below expected minimum."
           else "Volume significantly below expected minimum.")
          [("bytes", Value.float c), ("expected_min_bytes", Value.float e),
           ("ratio", Value.float (roundTo3 (c / e))),
           ("bytes_human", Value.str (_format_bytes c)),
           ("expected_min_human", Value.str (_format_bytes e))]) := by
  cases hv1 : dataset.get "bytes" <;>
    first
      | exact absurd hv1 h1
      | (cases hv2 : dataset.get "expected_min_bytes" <;>
          first
            | exact absurd hv2 h2
            | (rw [hv1] at hc
               rw [hv2] at he
               simp only [pyFloat, Option.some.injEq] at hc he
               first
                 | exact absurd hc (by simp)
                 | exact absurd he (by simp)
                 | simp [check_volume, pyFloat, hv1, hv2, hc, he, apply_ite Prod.fst,
                     apply_ite Prod.snd]))

lemma check_volume_invalid (dataset : Dataset) (now : ℤ)
    (h1 : dataset.get "bytes" ≠ Value.none)
    (h2 : dataset.get "expected_min_bytes" ≠ Value.none)
    (h : pyFloat (dataset.get "bytes") = Option.none ∨
      pyFloat (dataset.get "expected_min_bytes") = Option.none) :
    (check_volume dataset now).status = Status.YELLOW := by
  rcases h with h | h
  · cases hv1 : dataset.get "bytes" <;>
      first
        | exact absurd hv1 h1
        | (rw [hv1] at h
           cases hv2 : dataset.get "expected_min_bytes" <;>
             first
               | exact absurd hv2 h2
               | simp [check_volume, hv1, hv2, h])
  · rcases hq1 : pyFloat (dataset.get "bytes") with _ | c <;>
      (cases hv1 : dataset.get "bytes" <;>
        first
          | exact absurd hv1 h1
          | (cases hv2 : dataset.get "expected_min_bytes" <;>
              first
                | exact absurd hv2 h2
                | (rw [hv1] at hq1
                   rw [hv2] at h
                   simp [check_volume, hv1, hv2, hq1, h])))

/-- C5: completeness (record_count vs expected_min_records) and volume
(bytes vs expected_min_bytes) each return GREEN when the actual is at least
the expected; YELLOW when a field is missing, when `float()` rejects one, or
when the expected minimum is ≤ 0, or when the actual is below the expected
but the unrounded ratio is ≥ 0.9; RED when the unrounded ratio is < 0.9.
The `ratio` reported in `details` is the ratio rounded to 3 decimals, while
every status comparison uses the unrounded ratio `c / e`. -/
theorem completeness_volume_spec (dataset : Dataset) (now : ℤ) :
    ((dataset.get "record_count" = Value.none ∨
        dataset.get "expected_min_records" = Value.none) →
      (check_completeness dataset now).status = Status.YELLOW)
    ∧ (dataset.get "record_count" ≠ Value.none →
        dataset.get "expected_min_records" ≠ Value.none →
        (pyFloat (dataset.get "record_count") = Option.none ∨
          pyFloat (dataset.get "expected_min_records") = Option.none) →
        (check_completeness dataset now).status = Status.YELLOW)
    ∧ (∀ (c e : ℚ), dataset.get "record_count" ≠ Value.none →
        dataset.get "expected_min_records" ≠ Value.none →
        pyFloat (dataset.get "record_count") = Option.some c →
        pyFloat (dataset.get "expected_min_records") = Option.some e →
        (e ≤ 0 → (check_completeness dataset now).status = Status.YELLOW)
        ∧ (0 < e →
            (((check_completeness dataset now).status = Status.GREEN ↔ e ≤ c)
             ∧ ((check_completeness dataset now).status = Status.YELLOW ↔
                 (c < e ∧ (0.9 : ℚ) ≤ c / e))
             ∧ ((check_completeness dataset now).status = Status.RED ↔ c / e < 0.9)
             ∧ (check_completeness dataset now).details.lookup "ratio" =
                 Option.some (Value.float (roundTo3 (c / e))))))
    ∧ ((dataset.get "bytes" = Value.none ∨
        dataset.get "expected_min_bytes" = Value.none) →
      (check_volume dataset now).status = Status.YELLOW)
    ∧ (dataset.get "bytes" ≠ Value.none →
        dataset.get "expected_min_bytes" ≠ Value.none →
        (pyFloat (dataset.get "bytes") = Option.none ∨
          pyFloat (dataset.get "expected_min_bytes") = Option.none) →
        (check_volume dataset now).status = Status.YELLOW)
    ∧ (∀ (c e : ℚ), dataset.get "bytes" ≠ Value.none →
        dataset.get "expected_min_bytes" ≠ Value.none →
        pyFloat (dataset.get "bytes") = Option.some c →
        pyFloat (dataset.get "expected_min_bytes") = Option.some e →
        (e ≤ 0 → (check_volume dataset now).status = Status.YELLOW)
        ∧ (0 < e →
            (((check_volume dataset now).status = Status.GREEN ↔ e ≤ c)
             ∧ ((check_volume dataset now).status = Status.YELLOW ↔
                 (c < e ∧ (0.9 : ℚ) ≤ c / e))
             ∧ ((check_volume dataset now).status = Status.RED ↔ c / e < 0.9)
             ∧ (check_volume dataset now).details.lookup "ratio" =
                 Option.some (Value.float (roundTo3 (c / e)))))) := by
  refine ⟨check_completeness_missing dataset now, check_completeness_invalid dataset now,
    ?_, check_volume_missing dataset now, check_volume_invalid dataset now, ?_⟩
  · intro c e h1 h2 hc he
    have hv := check_completeness_valid dataset now c e h1 h2 hc he
    constructor
    · intro hle
      rw [hv, if_pos hle]
    · intro hpos
      rw [hv, if_neg (not_le.mpr hpos)]
      split_ifs with hge hratio
      · exact ⟨⟨fun _ => hge, fun _ => rfl⟩,
          ⟨fun hx => by simp at hx, fun hx => absurd hge (not_le.mpr hx.1)⟩,
          ⟨fun hx => by simp at hx, fun hx => by
            have hd : (1 : ℚ) ≤ c / e := (one_le_div hpos).mpr hge
            linarith⟩,
          by simp [List.lookup]⟩
      · exact ⟨⟨fun hx => by simp at hx, fun hx => absurd hx hge⟩,
          ⟨fun _ => ⟨not_le.mp hge, hratio⟩, fun _ => rfl⟩,
          ⟨fun hx => by simp at hx, fun hx => absurd hratio (not_le.mpr hx)⟩,
          by simp [List.lookup]⟩
      · exact ⟨⟨fun hx => by simp at hx, fun hx => absurd hx hge⟩,
          ⟨fun hx => by simp at hx, fun hx => absurd hx.2 hratio⟩,
          ⟨fun _ => not_le.mp hratio, fun _ => rfl⟩,
          by simp [List.lookup]⟩
  · intro c e h1 h2 hc he
    have hv := check_volume_valid dataset now c e h1 h2 hc he
    constructor
    · intro hle
      rw [hv, if_pos hle]
    · intro hpos
      rw [hv, if_neg (not_le.mpr hpos)]
      split_ifs with hge hratio
      · exact ⟨⟨fun _ => hge, fun _ => rfl⟩,
          ⟨fun hx => by simp at hx, fun hx => absurd hge (not_le.mpr hx.1)⟩,
          ⟨fun hx => by simp at hx, fun hx => by
            have hd : (1 : ℚ) ≤ c / e := (one_le_div hpos).mpr hge
            linarith⟩,
          by simp [List.lookup]⟩
      · exact ⟨⟨fun hx => by simp at hx, fun hx => absurd hx hge⟩,
          ⟨fun _ => ⟨not_le.mp hge, hratio⟩, fun _ => rfl⟩,
          ⟨fun hx => by simp at hx, fun hx => absurd hratio (not_le.mpr hx)⟩,
          by simp [List.lookup]⟩
      · exact ⟨⟨fun hx => by simp at hx, fun hx => absurd hx hge⟩,
          ⟨fun hx => by simp at hx, fun hx => absurd hx.2 hratio⟩,
          ⟨fun _ => not_le.mp hratio, fun _ => rfl⟩,
          by simp [List.lookup]⟩

def dComp : Dataset :=
  Dataset.mk "d" "" "" ""
    [("record_count", Value.int 95), ("expected_min_records", Value.int 100)] ""

def dVol : Dataset :=
  Dataset.mk "d" "" "" ""
    [("bytes", Value.int 50), ("expected_min_bytes", Value.int 100)] ""

theorem completeness_volume_spec_witness :
    (check_completeness dComp 0).status = Status.YELLOW ∧
      (check_volume dVol 0).status = Status.RED := by
  constructor
  · exact (((completeness_volume_spec dComp 0).2.2.1 95 100
      (by simp [dComp, Dataset.get, List.lookup])
      (by simp [dComp, Dataset.get, List.lookup])
      (by simp [dComp, Dataset.get, List.lookup, pyFloat])
      (by simp [dComp, Dataset.get, List.lookup, pyFloat])).2 (by norm_num)).2.1.mpr
      (by norm_num)
  · exact (((completeness_volume_spec dVol 0).2.2.2.2.2 50 100
      (by simp [dVol, Dataset.get, List.lookup])
      (by simp [dVol, Dataset.get, List.lookup])
      (by simp [dVol, Dataset.get, List.lookup, pyFloat])
      (by simp [dVol, Dataset.get, List.lookup, pyFloat])).2 (by norm_num)).2.2.1.mpr
      (by norm_num)

/-! ### Schema check lemmas, claims C6 and C10 -/

lemma sortedSetDiff_sorted (xs ys : List String) : List.Sorted sle (sortedSetDiff xs ys) :=
  List.sorted_insertionSort sle _

lemma sortedSetDiff_nodup (xs ys : List String) : (sortedSetDiff xs ys).Nodup :=
  ((List.perm_insertionSort sle _).nodup_iff).mpr (List.nodup_dedup _)

lemma mem_sortedSetDiff (xs ys : List String) (s : String) :
    s ∈ sortedSetDiff xs ys ↔ (s ∈ xs ∧ s ∉ ys) := by
  unfold sortedSetDiff
  rw [(List.perm_insertionSort sle _).mem_iff, List.mem_dedup, List.mem_filter]
  simp

lemma sortedSetDiff_eq_nil_iff (xs ys : List String) :
    sortedSetDiff xs ys = [] ↔ ∀ s ∈ xs, s ∈ ys := by
  simp [List.eq_nil_iff_forall_not_mem, mem_sortedSetDiff]

lemma sortedSetDiff_congr (xs xs' ys ys' : List String)
    (hx : ∀ s, s ∈ xs ↔ s ∈ xs') (hy : ∀ s, s ∈ ys ↔ s ∈ ys') :
    sortedSetDiff xs ys = sortedSetDiff xs' ys' := by
  refine List.eq_of_perm_of_sorted ?_ (sortedSetDiff_sorted xs ys)
    (sortedSetDiff_sorted xs' ys')
  refine List.perm_of_nodup_nodup_toFinset_eq (sortedSetDiff_nodup _ _)
    (sortedSetDiff_nodup _ _) ?_
  ext a
  simp [List.mem_toFinset, mem_sortedSetDiff, hx a, hy a]

lemma check_schema_missing (dataset : Dataset) (now : ℤ)
    (h : _normalize_schema (dataset.get "schema") = [] ∨
      _normalize_schema (dataset.get "expected_schema") = []) :
    (check_schema dataset now).status = Status.YELLOW ∧
    (check_schema dataset now).message = "Missing schema or expected_schema metadata." := by
  have hcond : (_normalize_schema (dataset.get "schema")).isEmpty = true ∨
      (_normalize_schema (dataset.get "expected_schema")).isEmpty = true := by
    rcases h with h | h <;> simp [h]
  simp only [check_schema]
  rw [if_pos hcond]
  exact ⟨rfl, rfl⟩

lemma check_schema_compare (dataset : Dataset) (now : ℤ)
    (hA : _normalize_schema (dataset.get "schema") ≠ [])
    (hE : _normalize_schema (dataset.get "expected_schema") ≠ []) :
    check_schema dataset now =
      CheckResult.mk "schema"
        (if sortedSetDiff (_normalize_schema (dataset.get "expected_schema"))
            (_normalize_schema (dataset.get "schema")) ≠ [] then Status.RED
         else if sortedSetDiff (_normalize_schema (dataset.get "schema"))
            (_normalize_schema (dataset.get "expected_schema")) ≠ [] then Status.YELLOW
         else Status.GREEN)
        (if sortedSetDiff (_normalize_schema (dataset.get "expected_schema"))
            (_normalize_schema (dataset.get "schema")) ≠ [] then "Missing expected fields."
         else if sortedSetDiff (_normalize_schema (dataset.get "schema"))
            (_normalize_schema (dataset.get "expected_schema")) ≠ [] then
           "Schema has extra fields."
         else "Schema matches expected fields.")
        [("missing", Value.list ((sortedSetDiff (_normalize_schema (dataset.get "expected_schema"))
            (_normalize_schema (dataset.get "schema"))).map Value.str)),
         ("extra", Value.list ((sortedSetDiff (_normalize_schema (dataset.get "schema"))
            (_normalize_schema (dataset.get "expected_schema"))).map Value.str))] := by
  have hcond : ¬ ((_normalize_schema (dataset.get "schema")).isEmpty = true ∨
      (_normalize_schema (dataset.get "expected_schema")).isEmpty = true) := by
    simp [List.isEmpty_iff, hA, hE]
  simp only [check_schema]
  rw [if_neg hcond]
  simp only [List.isEmpty_iff, apply_ite Prod.fst, apply_ite Prod.snd]

/-- C6: for non-empty normalized schema lists, the comparison is set-based —
`missing`/`extra` are the sorted, duplicate-free set differences, membership
depends only on the sets, and any dataset with the same normalized string
sets gets the identical result — with RED (missing expected fields) decided
before YELLOW (strict superset, extra fields only), and GREEN exactly when
the two sets are equal, with both reported lists empty. -/
theorem check_schema_spec (dataset : Dataset) (now : ℤ) (actual expected : List String)
    (ha : _normalize_schema (dataset.get "schema") = actual)
    (he : _normalize_schema (dataset.get "expected_schema") = expected)
    (hA : actual ≠ []) (hE : expected ≠ []) :
    (sortedSetDiff expected actual ≠ [] →
      (check_schema dataset now).status = Status.RED)
    ∧ (sortedSetDiff expected actual = [] → sortedSetDiff actual expected ≠ [] →
      (check_schema dataset now).status = Status.YELLOW)
    ∧ (sortedSetDiff expected actual = [] → sortedSetDiff actual expected = [] →
      (check_schema dataset now).status = Status.GREEN)
    ∧ (check_schema dataset now).details =
        [("missing", Value.list ((sortedSetDiff expected actual).map Value.str)),
         ("extra", Value.list ((sortedSetDiff actual expected).map Value.str))]
    ∧ (List.Sorted sle (sortedSetDiff expected actual)
        ∧ (sortedSetDiff expected actual).Nodup
        ∧ ∀ s, s ∈ sortedSetDiff expected actual ↔ (s ∈ expected ∧ s ∉ actual))
    ∧ (List.Sorted sle (sortedSetDiff actual expected)
        ∧ (sortedSetDiff actual expected).Nodup
        ∧ ∀ s, s ∈ sortedSetDiff actual expected ↔ (s ∈ actual ∧ s ∉ expected))
    ∧ ((sortedSetDiff expected actual = [] ∧ sortedSetDiff actual expected = []) ↔
        actual.toFinset = expected.toFinset)
    ∧ ((sortedSetDiff expected actual = [] ∧ sortedSetDiff actual expected ≠ []) ↔
        expected.toFinset ⊂ actual.toFinset)
    ∧ (∀ (d' : Dataset) (now' : ℤ) (actual' expected' : List String),
        _normalize_schema (d'.get "schema") = actual' →
        _normalize_schema (d'.get "expected_schema") = expected' →
        actual'.toFinset = actual.toFinset →
        expected'.toFinset = expected.toFinset →
        check_schema d' now' = check_schema dataset now) := by
  have hc := check_schema_compare dataset now (by rw [ha]; exact hA) (by rw [he]; exact hE)
  rw [ha, he] at hc
  have hsub1 : (sortedSetDiff expected actual = []) ↔ expected.toFinset ⊆ actual.toFinset := by
    rw [sortedSetDiff_eq_nil_iff]
    constructor
    · intro h s hs
      rw [List.mem_toFinset] at hs ⊢
      exact h s hs
    · intro h s hs
      exact List.mem_toFinset.mp (h (List.mem_toFinset.mpr hs))
  have hsub2 : (sortedSetDiff actual expected = []) ↔ actual.toFinset ⊆ expected.toFinset := by
    rw [sortedSetDiff_eq_nil_iff]
    constructor
    · intro h s hs
      rw [List.mem_toFinset] at hs ⊢
      exact h s hs
    · intro h s hs
      exact List.mem_toFinset.mp (h (List.mem_toFinset.mpr hs))
  refine ⟨?_, ?_, ?_, ?_, ⟨sortedSetDiff_sorted _ _, sortedSetDiff_nodup _ _,
      mem_sortedSetDiff _ _⟩, ⟨sortedSetDiff_sorted _ _, sortedSetDiff_nodup _ _,
      mem_sortedSetDiff _ _⟩, ?_, ?_, ?_⟩
  · intro hm
    rw [hc]
    simp [hm]
  · intro hm hx
    rw [hc]
    simp [hm, hx]
  · intro hm hx
    rw [hc]
    simp [hm, hx]
  · rw [hc]
  · rw [hsub1, hsub2, Finset.Subset.antisymm_iff]
    tauto
  · rw [hsub1, ssubset_iff_subset_not_subset]
    simp only [ne_eq, hsub2]
  · intro d' now' actual' expected' ha' he' hfa hfe
    have hmemA : ∀ s, s ∈ actual' ↔ s ∈ actual := fun s => by
      rw [← List.mem_toFinset, hfa, List.mem_toFinset]
    have hmemE : ∀ s, s ∈ expected' ↔ s ∈ expected := fun s => by
      rw [← List.mem_toFinset, hfe, List.mem_toFinset]
    have hA' : actual' ≠ [] := by
      intro hnil
      rcases List.exists_mem_of_ne_nil actual hA with ⟨a, haa⟩
      have := (hmemA a).mpr haa
      rw [hnil] at this
      simp at this
    have hE' : expected' ≠ [] := by
      intro hnil
      rcases List.exists_mem_of_ne_nil expected hE with ⟨a, haa⟩
      have := (hmemE a).mpr haa
      rw [hnil] at this
      simp at this
    have hc' := check_schema_compare d' now' (by rw [ha']; exact hA') (by rw [he']; exact hE')
    rw [ha', he'] at hc'
    rw [hc, hc', sortedSetDiff_congr expected' expected actual' actual hmemE hmemA,
      sortedSetDiff_congr actual' actual expected' expected hmemA hmemE]

def dSchema : Dataset :=
  Dataset.mk "d" "" "" ""
    [("schema", Value.list [Value.str "id", Value.str "user_id"]),
     ("expected_schema", Value.list [Value.str "id", Value.str "user_id", Value.str "ts"])] ""

theorem check_schema_spec_witness :
    (check_schema dSchema 0).status = Status.RED ∧
      (check_schema dSchema 0).details =
        [("missing", Value.list [Value.str "ts"]), ("extra", Value.list [])] := by
  have h := check_schema_spec dSchema 0 ["id", "user_id"] ["id", "user_id", "ts"]
    rfl rfl (by simp) (by simp)
  refine ⟨h.1 (by decide), ?_⟩
  rw [h.2.2.2.1,
    (by decide : sortedSetDiff ["id", "user_id", "ts"] ["id", "user_id"] = ["ts"]),
    (by decide : sortedSetDiff ["id", "user_id"] ["id", "user_id", "ts"] = [])]
  rfl

/-- C10: a `schema` or `expected_schema` entry that is an empty list (or
empty tuple), or any value that is not a list or tuple — a single string,
a number, a datetime, `None` — normalizes to `[]`, so the check treats that
side as missing and returns the YELLOW "Missing schema or expected_schema
metadata." result instead of comparing field sets. -/
theorem check_schema_nonlist_spec (dataset : Dataset) (now : ℤ) (v : Value)
    (hv : dataset.get "schema" = v ∨ dataset.get "expected_schema" = v)
    (hshape : v = Value.list [] ∨ v = Value.tuple [] ∨
      ((∀ xs, v ≠ Value.list xs) ∧ (∀ xs, v ≠ Value.tuple xs))) :
    (check_schema dataset now).status = Status.YELLOW ∧
    (check_schema dataset now).message = "Missing schema or expected_schema metadata." := by
  have hnorm : _normalize_schema v = [] := by
    rcases hshape with rfl | rfl | ⟨h1, h2⟩
    · rfl
    · rfl
    · cases v <;>
        first
          | rfl
          | exact absurd rfl (h1 _)
          | exact absurd rfl (h2 _)
  apply check_schema_missing
  rcases hv with h | h
  · exact Or.inl (by rw [h, hnorm])
  · exact Or.inr (by rw [h, hnorm])

def dSchemaStr : Dataset :=
  Dataset.mk "d" "" "" ""
    [("schema", Value.str "id"),
     ("expected_schema", Value.list [Value.str "id"])] ""

theorem check_schema_nonlist_spec_witness :
    (check_schema dSchemaStr 0).status = Status.YELLOW ∧
      (check_schema dSchemaStr 0).message = "Missing schema or expected_schema metadata." :=
  check_schema_nonlist_spec dSchemaStr 0 (Value.str "id") (Or.inl rfl)
    (Or.inr (Or.inr ⟨fun xs h => by simp at h, fun xs h => by simp at h⟩))

/-! ### Claim C7: the no-raise contract is violated by check_freshness -/

def dHugeTs : Dataset :=
  Dataset.mk "huge" "" "" ""
    [("last_updated", Value.int 1000000000000000), ("freshness_hours", Value.int 12)] ""

/-- C7: refuted by the code.  The contract says every check returns exactly
one `CheckResult` and never raises — malformed metadata is a YELLOW result,
never a fatal error.  But for a numeric `last_updated` outside `datetime`'s
representable range (here 10^15 seconds, far past year 9999),
`parse_datetime` calls `datetime.fromtimestamp`, whose error is caught
nowhere — the `try` in `parse_datetime` wraps only `fromisoformat`, and the
one in `check_freshness` wraps only `float(freshness_hours)` — so
`check_freshness` propagates an uncaught exception and produces no
`CheckResult`, even though the remaining metadata (`freshness_hours = 12`)
is valid. -/
theorem check_freshness_uncaught_raise :
    check_freshness dHugeTs 0 = Except.error fromtimestampMsg
    ∧ pyFloat (dHugeTs.get "freshness_hours") = Option.some 12 := by
  constructor
  · have hp : parse_datetime (dHugeTs.get "last_updated") =
        Except.error fromtimestampMsg := by
      have h := parse_datetime_int_raise 1000000000000000 (Or.inr (by decide))
      simpa [dHugeTs, Dataset.get, List.lookup] using h
    exact check_freshness_raise dHugeTs 0 fromtimestampMsg hp
  · simp [dHugeTs, Dataset.get, List.lookup, pyFloat]
